import Mathlib

/-!
Shallow embedding of the vibe-based recommendation core of the repository:
similarity scoring (cosine over fixed preference vectors), preference blending,
candidate ranking, vibe pills and the why-this explanation, together with
theorems settling the specification claims.

Vector entries coming from JSON numbers are modelled as rationals; the
square root and division of the cosine computation live in the reals.
-/

namespace VibeEngine

/-- Embeds the source function dot: a.reduce((s, v, i) => s + (v || 0) * (b[i] || 0), 0).
The reduction runs over the indices of the first list; a read past the end of
the second list yields 0 (the JS expression b[i] || 0). -/
def dot (a b : List ℚ) : ℚ :=
  ∑ i ∈ Finset.range a.length, a.getD i 0 * b.getD i 0

/-- Embeds the sum inside the source function norm: a.reduce((s, v) => s + (v || 0) * (v || 0), 0). -/
def normSq (a : List ℚ) : ℚ :=
  ∑ i ∈ Finset.range a.length, a.getD i 0 * a.getD i 0

/-- Embeds the source function norm: Math.sqrt of the sum of squares. -/
noncomputable def norm (a : List ℚ) : ℝ :=
  Real.sqrt ((normSq a : ℚ) : ℝ)

/-- Embeds the source function cosine: null inputs give 0, a zero norm on either
side gives 0, otherwise dot(a,b) / (norm(a) * norm(b)). -/
noncomputable def cosine (a b : Option (List ℚ)) : ℝ :=
  match a, b with
  | none, _ => 0
  | _, none => 0
  | some a, some b =>
    if norm a = 0 ∨ norm b = 0 then 0 else ((dot a b : ℚ) : ℝ) / (norm a * norm b)

lemma normSq_nonneg (a : List ℚ) : 0 ≤ normSq a := by
  exact Finset.sum_nonneg fun i _ => mul_self_nonneg _

lemma norm_nonneg' (a : List ℚ) : 0 ≤ norm a := Real.sqrt_nonneg _

lemma norm_eq_zero_iff (a : List ℚ) : norm a = 0 ↔ normSq a = 0 := by
  unfold norm
  rw [Real.sqrt_eq_zero']
  constructor
  · intro h
    have h0 : ((normSq a : ℚ) : ℝ) = 0 := le_antisymm (by exact_mod_cast h) (by exact_mod_cast normSq_nonneg a)
    exact_mod_cast h0
  · intro h; rw [h]; simp

lemma dot_eq_range (a b : List ℚ) {n : ℕ} (h : a.length ≤ n) :
    dot a b = ∑ i ∈ Finset.range n, a.getD i 0 * b.getD i 0 := by
  unfold dot
  refine Finset.sum_subset (Finset.range_subset.mpr h) ?_
  intro i _ hi
  have hlen : a.length ≤ i := by
    by_contra hc
    exact hi (Finset.mem_range.mpr (lt_of_not_le hc))
  rw [List.getD_eq_default _ _ hlen, zero_mul]

lemma normSq_eq_range (a : List ℚ) {n : ℕ} (h : a.length ≤ n) :
    normSq a = ∑ i ∈ Finset.range n, a.getD i 0 * a.getD i 0 :=
  dot_eq_range a a h

lemma dot_comm (a b : List ℚ) : dot a b = dot b a := by
  rw [dot_eq_range a b (le_max_left a.length b.length),
      dot_eq_range b a (le_max_right a.length b.length)]
  exact Finset.sum_congr rfl fun i _ => mul_comm _ _

/-- Fixed concrete test vector: the unit vector along axis 0 (a strong
arthouse lean), used to instantiate universally quantified theorems. -/
def unitVec0 : List ℚ := [1, 0, 0, 0, 0, 0, 0, 0, 0, 0]

/-- Fixed concrete test vector: the all-zero preference vector. -/
def zeroVec10 : List ℚ := [0, 0, 0, 0, 0, 0, 0, 0, 0, 0]

lemma normSq_unitVec0 : normSq unitVec0 = 1 := by
  simp [normSq, unitVec0, Finset.sum_range_succ]

lemma norm_unitVec0 : norm unitVec0 = 1 := by
  unfold norm
  rw [normSq_unitVec0]
  simp

lemma cosine_unitVec0_self : cosine (some unitVec0) (some unitVec0) = 1 := by
  simp only [cosine]
  rw [if_neg (by rw [norm_unitVec0]; norm_num)]
  rw [show dot unitVec0 unitVec0 = 1 from normSq_unitVec0, norm_unitVec0]
  norm_num

/-- C1: the similarity function returns 0 when either input is missing or either
norm is exactly 0, and otherwise returns the dot product divided by the product
of the Euclidean norms. -/
theorem c1_similarity_cases :
    (∀ b, cosine none b = 0) ∧
    (∀ a, cosine a none = 0) ∧
    (∀ a b, (norm a = 0 ∨ norm b = 0) → cosine (some a) (some b) = 0) ∧
    (∀ a b, norm a ≠ 0 → norm b ≠ 0 →
      cosine (some a) (some b) = ((dot a b : ℚ) : ℝ) / (norm a * norm b)) := by
  refine ⟨fun b => ?_, fun a => ?_, fun a b h => ?_, fun a b ha hb => ?_⟩
  · cases b <;> rfl
  · cases a <;> rfl
  · simp only [cosine]
    rw [if_pos h]
  · simp only [cosine]
    rw [if_neg (by push_neg; exact ⟨ha, hb⟩)]

/-- Witness for c1_similarity_cases on the concrete unit vector along axis 0. -/
theorem c1_similarity_cases_witness :
    norm [1, 0, 0, 0, 0, 0, 0, 0, 0, 0] ≠ 0 ∧
    cosine (some [1, 0, 0, 0, 0, 0, 0, 0, 0, 0]) (some [1, 0, 0, 0, 0, 0, 0, 0, 0, 0]) =
      ((dot [1, 0, 0, 0, 0, 0, 0, 0, 0, 0] [1, 0, 0, 0, 0, 0, 0, 0, 0, 0] : ℚ) : ℝ) /
        (norm [1, 0, 0, 0, 0, 0, 0, 0, 0, 0] * norm [1, 0, 0, 0, 0, 0, 0, 0, 0, 0]) := by
  have hn : norm [1, 0, 0, 0, 0, 0, 0, 0, 0, 0] ≠ 0 := by
    rw [Ne, norm_eq_zero_iff]
    simp [normSq, Finset.sum_range_succ]
  exact ⟨hn, c1_similarity_cases.2.2.2 _ _ hn hn⟩

/-- C7: the similarity function is symmetric in its two arguments, including the
missing-input and zero-norm cases. -/
theorem c7_similarity_symm (a b : Option (List ℚ)) : cosine a b = cosine b a := by
  cases a with
  | none => cases b <;> rfl
  | some a =>
    cases b with
    | none => rfl
    | some b =>
      simp only [cosine]
      rw [dot_comm, mul_comm (norm a) (norm b)]
      by_cases h : norm a = 0 ∨ norm b = 0
      · rw [if_pos h, if_pos h.symm]
      · rw [if_neg h, if_neg fun hc => h hc.symm]

lemma dot_sq_le_normSq_mul (a b : List ℚ) : dot a b ^ 2 ≤ normSq a * normSq b := by
  have hb : b.length ≤ max a.length b.length := le_max_right _ _
  have ha : a.length ≤ max a.length b.length := le_max_left _ _
  have hcs := Finset.sum_mul_sq_le_sq_mul_sq (Finset.range (max a.length b.length))
    (fun i => a.getD i 0) (fun i => b.getD i 0)
  rw [dot_eq_range a b ha, normSq_eq_range a ha, normSq_eq_range b hb]
  calc (∑ i ∈ Finset.range (max a.length b.length), a.getD i 0 * b.getD i 0) ^ 2
      ≤ (∑ i ∈ Finset.range (max a.length b.length), a.getD i 0 ^ 2) *
          ∑ i ∈ Finset.range (max a.length b.length), b.getD i 0 ^ 2 := hcs
    _ = (∑ i ∈ Finset.range (max a.length b.length), a.getD i 0 * a.getD i 0) *
          ∑ i ∈ Finset.range (max a.length b.length), b.getD i 0 * b.getD i 0 := by
        rw [Finset.sum_congr rfl fun i _ => pow_two (a.getD i 0),
            Finset.sum_congr rfl fun i _ => pow_two (b.getD i 0)]

lemma abs_dot_le_norm_mul_norm (a b : List ℚ) :
    |((dot a b : ℚ) : ℝ)| ≤ norm a * norm b := by
  have hsqR : (((dot a b : ℚ) : ℝ)) ^ 2 ≤ ((normSq a : ℚ) : ℝ) * ((normSq b : ℚ) : ℝ) := by
    exact_mod_cast dot_sq_le_normSq_mul a b
  have habs : |((dot a b : ℚ) : ℝ)| = Real.sqrt ((((dot a b : ℚ) : ℝ)) ^ 2) :=
    (Real.sqrt_sq_eq_abs _).symm
  rw [habs]
  unfold norm
  rw [← Real.sqrt_mul (by exact_mod_cast normSq_nonneg a)]
  exact Real.sqrt_le_sqrt hsqR

/-- C8: for every pair of inputs, including missing and zero-norm vectors, the
similarity result lies in the closed interval from -1 to 1. -/
theorem c8_similarity_bounded (a b : Option (List ℚ)) :
    -1 ≤ cosine a b ∧ cosine a b ≤ 1 := by
  cases a with
  | none => constructor <;> simp [cosine]
  | some a =>
    cases b with
    | none => constructor <;> simp [cosine]
    | some b =>
      simp only [cosine]
      by_cases h : norm a = 0 ∨ norm b = 0
      · rw [if_pos h]; constructor <;> norm_num
      · rw [if_neg h]
        push_neg at h
        have hna : 0 < norm a := lt_of_le_of_ne (norm_nonneg' a) (Ne.symm h.1)
        have hnb : 0 < norm b := lt_of_le_of_ne (norm_nonneg' b) (Ne.symm h.2)
        have hpos : 0 < norm a * norm b := mul_pos hna hnb
        have habs : |((dot a b : ℚ) : ℝ) / (norm a * norm b)| ≤ 1 := by
          rw [abs_div, abs_of_pos hpos]
          exact (div_le_one hpos).mpr (abs_dot_le_norm_mul_norm a b)
        exact abs_le.mp habs

/-- Embeds the missing-preferences test of the group-blend screen:
!vec || !Array.isArray(vec) || vec.length === 0 on the looked-up
preference vector of a participant. -/
def missingPref (vec : Option (List ℚ)) : Bool :=
  match vec with
  | none => true
  | some v => v.length == 0

/-- Embeds the per-candidate scoring loop of the group-blend screen: for a
candidate with a vibe vector, collect the cosine similarity of every
participant whose lookup produced a vector, then average the collected
similarities, defaulting to 0 when none were collected; a candidate with no
vibe vector scores 0. -/
noncomputable def blendScore (parts : List (Option (List ℚ))) (vibe : Option (List ℚ)) : ℝ :=
  match vibe with
  | none => 0
  | some vb =>
    let sims : List ℝ :=
      (parts.filterMap id).map fun vec =>
        if norm vec = 0 ∨ norm vb = 0 then 0 else ((dot vec vb : ℚ) : ℝ) / (norm vec * norm vb)
    if 0 < sims.length then sims.sum / (sims.length : ℝ) else 0

/-- Embeds computeBlended of the group-blend screen including its
missing-preferences validation: when any participant lacks a non-empty
preference vector the function alerts and returns before the scoring loop runs
(modelled as none); otherwise every candidate is scored by blendScore. -/
noncomputable def computeBlended (parts : List (Option (List ℚ))) (vibe : Option (List ℚ)) :
    Option ℝ :=
  if 0 < (parts.filter missingPref).length then none
  else some (blendScore parts vibe)

/-- Embeds the two-person blend of BlendWithUserScreen:
blended = (cosine(userPref, vibe) + cosine(otherPref, vibe)) / 2. -/
noncomputable def blendPair (userPref otherPref vibe : Option (List ℚ)) : ℝ :=
  (cosine userPref vibe + cosine otherPref vibe) / 2

/-- Written from the claim: the arithmetic mean over ALL participants of their
individual similarity against the candidate, a missing or zero-norm vector
contributing 0.0 to the mean without being excluded from the denominator; 0
for the empty participant set. -/
noncomputable def blendMeanAll (parts : List (Option (List ℚ))) (vb : Option (List ℚ)) : ℝ :=
  if parts.length = 0 then 0
  else (parts.map fun p => cosine p vb).sum / (parts.length : ℝ)

lemma filterMap_id_map_of_no_none (vb : Option (List ℚ)) :
    ∀ (parts : List (Option (List ℚ))), (∀ p ∈ parts, p ≠ none) →
      (parts.filterMap id).map (fun v => cosine (some v) vb) =
        parts.map fun p => cosine p vb := by
  intro parts
  induction parts with
  | nil => intro _; rfl
  | cons p rest ih =>
    intro h
    cases p with
    | none => exact absurd rfl (h none (List.mem_cons_self _ _))
    | some v =>
      have htail := ih fun q hq => h q (List.mem_cons_of_mem _ hq)
      simp only [List.filterMap_cons, id, List.map_cons, htail]

lemma blendScore_eq_mean (parts : List (Option (List ℚ))) (vb : List ℚ)
    (h : ∀ p ∈ parts, p ≠ none) :
    blendScore parts (some vb) = blendMeanAll parts (some vb) := by
  have hmap := filterMap_id_map_of_no_none (some vb) parts h
  have hlen : (parts.filterMap id).length = parts.length := by
    have := congrArg List.length hmap
    simpa [List.length_map] using this
  simp only [blendScore, blendMeanAll]
  have hfun : (fun vec => if norm vec = 0 ∨ norm vb = 0 then (0 : ℝ)
      else ((dot vec vb : ℚ) : ℝ) / (norm vec * norm vb)) =
      fun vec => cosine (some vec) (some vb) := rfl
  rw [hfun, List.length_map, hlen, hmap]
  rcases Nat.eq_zero_or_pos parts.length with h0 | h0
  · rw [if_neg (by omega), if_pos h0]
  · rw [if_pos h0, if_neg (by omega)]

/-- C2: both blend paths compute the arithmetic mean over ALL participants of
their individual similarity, with a missing or zero-norm vector contributing
0.0 to the mean and staying in the denominator, and 0 for the empty set: the
two-person blend divides by 2 unconditionally (a null vector scores 0.0
through cosine); the group blend refuses to produce any score when a
participant lacks a non-empty vector (it alerts and returns before scoring),
and on every run that does produce a score the score is that mean; the empty
participant set blends to 0. -/
theorem c2_blend_mean :
    (∀ up op vb, blendPair up op vb = blendMeanAll [up, op] vb) ∧
    (∀ parts vb, 0 < (parts.filter missingPref).length → computeBlended parts vb = none) ∧
    (∀ parts vb, (parts.filter missingPref).length = 0 →
      computeBlended parts (some vb) = some (blendMeanAll parts (some vb))) ∧
    (∀ vb, computeBlended [] vb = some 0) := by
  refine ⟨fun up op vb => ?_, fun parts vb h => ?_, fun parts vb h => ?_, fun vb => ?_⟩
  · simp only [blendPair, blendMeanAll, List.map_cons, List.map_nil, List.sum_cons,
      List.sum_nil, List.length_cons, List.length_nil]
    norm_num
  · unfold computeBlended
    rw [if_pos h]
  · have hno : ∀ p ∈ parts, p ≠ none := by
      intro p hp hnone
      have hnil : parts.filter missingPref = [] := List.length_eq_zero.mp h
      have := List.filter_eq_nil_iff.mp hnil p hp
      rw [hnone] at this
      exact this rfl
    unfold computeBlended
    rw [if_neg (by omega), blendScore_eq_mean parts vb hno]
  · unfold computeBlended
    rw [if_neg (by norm_num [List.filter])]
    cases vb with
    | none => rfl
    | some v => rfl

/-- Witness for c2_blend_mean: a missing participant aborts the group blend,
and a singleton participant set blends to the mean over all participants. -/
theorem c2_blend_mean_witness :
    (0 < (List.filter missingPref [some unitVec0, none]).length) ∧
    computeBlended [some unitVec0, none] (some unitVec0) = none ∧
    ((List.filter missingPref [some unitVec0]).length = 0) ∧
    computeBlended [some unitVec0] (some unitVec0) =
      some (blendMeanAll [some unitVec0] (some unitVec0)) :=
  ⟨by decide, c2_blend_mean.2.1 _ _ (by decide), by decide,
    c2_blend_mean.2.2.1 _ _ (by decide)⟩

/-- The may-precede relation induced by the ranking comparator
(a, b) => (b.similarity || 0) - (a.similarity || 0): row x may come before
row y exactly when the comparator value is nonpositive, that is, when the
score of y is at most the score of x. -/
def rowLE {α : Type} (x y : ℝ × α) : Prop := y.1 ≤ x.1

noncomputable instance {α : Type} : DecidableRel (@rowLE α) :=
  fun x y => inferInstanceAs (Decidable (y.1 ≤ x.1))

instance {α : Type} : IsTotal (ℝ × α) rowLE := ⟨fun a b => le_total b.1 a.1⟩

instance {α : Type} : IsTrans (ℝ × α) rowLE := ⟨fun _ _ _ h1 h2 => le_trans h2 h1⟩

/-- Embeds rows.sort((a, b) => (b.similarity || 0) - (a.similarity || 0)).
ECMAScript requires the sort to be stable and consistent with the comparator,
which determines the output uniquely; it is modelled as a stable insertion
sort with respect to rowLE. Each row is a score paired with opaque metadata. -/
noncomputable def sortRows {α : Type} (l : List (ℝ × α)) : List (ℝ × α) :=
  List.insertionSort rowLE l

lemma filter_orderedInsert_eq {α : Type} (x : ℝ × α) (l : List (ℝ × α)) (s : ℝ) :
    (List.orderedInsert rowLE x l).filter (fun p => p.1 = s) =
      if x.1 = s then x :: l.filter (fun p => p.1 = s)
      else l.filter (fun p => p.1 = s) := by
  induction l with
  | nil =>
    by_cases h : x.1 = s
    · simp [List.orderedInsert, List.filter_cons, h]
    · simp [List.orderedInsert, List.filter_cons, h]
  | cons y ys ih =>
    by_cases hxy : rowLE x y
    · simp only [List.orderedInsert, if_pos hxy, List.filter_cons, decide_eq_true_eq]
    · have hlt : x.1 < y.1 := lt_of_not_le hxy
      simp only [List.orderedInsert, if_neg hxy, List.filter_cons, decide_eq_true_eq, ih]
      by_cases h : x.1 = s
      · have hy : ¬ y.1 = s := h ▸ hlt.ne'
        simp [h, hy]
      · by_cases hy : y.1 = s <;> simp [h, hy]

lemma filter_sortRows {α : Type} (l : List (ℝ × α)) (s : ℝ) :
    (sortRows l).filter (fun p => p.1 = s) = l.filter (fun p => p.1 = s) := by
  induction l with
  | nil => rfl
  | cons x xs ih =>
    rw [show sortRows (x :: xs) = List.orderedInsert rowLE x (sortRows xs) from rfl,
        filter_orderedInsert_eq, List.filter_cons]
    by_cases h : x.1 = s
    · simp [h, ih]
    · simp [h, ih]

/-- C3: the ranking sort orders candidates with non-increasing scores across
the output, and the tie-break is stable: for every score value, the
subsequence of candidates carrying that score is the same, in the same
order, as in the input. -/
theorem c3_rank_sorted_stable {α : Type} (l : List (ℝ × α)) :
    List.Pairwise (fun p q => q.1 ≤ p.1) (sortRows l) ∧
    ∀ s : ℝ, (sortRows l).filter (fun p => p.1 = s) = l.filter (fun p => p.1 = s) :=
  ⟨List.sorted_insertionSort rowLE l, fun s => filter_sortRows l s⟩

/-- Embeds Math.round: rounding half toward positive infinity. -/
noncomputable def jround (x : ℝ) : ℤ := ⌊x + 1 / 2⌋

/-- Embeds the rendering step
Math.round(Math.max(0, Math.min(1, similarity)) * 100). -/
noncomputable def matchPercent (s : ℝ) : ℤ := jround (max 0 (min 1 s) * 100)

/-- Written from the spec: clamp(score, lo, hi). -/
noncomputable def clamp (x lo hi : ℝ) : ℝ := min hi (max lo x)

/-- C9: the displayed match percentage equals round(clamp(score, 0, 1) * 100),
and every negative similarity displays as 0 percent. -/
theorem c9_match_percent (s : ℝ) :
    matchPercent s = jround (clamp s 0 1 * 100) ∧ (s < 0 → matchPercent s = 0) := by
  have hmm : max 0 (min 1 s) = min 1 (max 0 s) := by
    rw [max_min_distrib_left, max_eq_right zero_le_one]
  constructor
  · unfold matchPercent clamp
    rw [hmm]
  · intro hs
    unfold matchPercent jround
    rw [min_eq_right (hs.le.trans zero_le_one), max_eq_left hs.le, zero_mul, zero_add]
    rw [Int.floor_eq_zero_iff]
    constructor <;> norm_num

/-- Witness for c9_match_percent at the concrete negative similarity -1/2. -/
theorem c9_match_percent_witness :
    ((-1 : ℝ) / 2 < 0) ∧ matchPercent ((-1 : ℝ) / 2) = 0 :=
  ⟨by norm_num, (c9_match_percent ((-1 : ℝ) / 2)).2 (by norm_num)⟩

/-- One row of an axis-label table: axis index, positive-pole label,
negative-pole label. -/
structure AxisRow where
  idx : ℕ
  posLabel : String
  negLabel : String
deriving DecidableEq

/-- The axis rows passed to the addAxis calls of the profile-screen
vibePills, in call order. -/
def axisConfigProfile : List AxisRow :=
  [⟨0, "Arthouse lean", "Mainstream crowd-pleaser"⟩,
   ⟨1, "Dark & moody", "Light & feel-good"⟩,
   ⟨2, "Slow-burn stories", "Fast-paced energy"⟩,
   ⟨6, "Fantastical worlds", "Grounded & realistic"⟩,
   ⟨7, "Optimistic endings", "Bleak & heavy"⟩,
   ⟨9, "Comfort rewatches", "Challenging watches"⟩]

/-- Embeds the addAxis helper of the profile-screen vibePills: the positive
label when the value strictly exceeds the threshold, the negative label when it
is strictly below the negated threshold, otherwise nothing. -/
def addAxis (v : List ℚ) (t : ℚ) (a : AxisRow) : Option String :=
  if t < v.getD a.idx 0 then some a.posLabel
  else if v.getD a.idx 0 < -t then some a.negLabel
  else none

/-- Embeds the profile-screen vibePills: empty when the preference vector is
missing or shorter than 10, otherwise the per-axis pills in axis-declaration
order truncated to the first 4. -/
def vibePills (pref : Option (List ℚ)) : List String :=
  match pref with
  | none => []
  | some v =>
    if v.length < 10 then []
    else (axisConfigProfile.filterMap (addAxis v 0.35)).take 4

/-- C6: each configured axis contributes its positive label exactly when the
value strictly exceeds the threshold 0.35 and its negative label exactly when
the value is strictly below -0.35; a value in the closed neutral band,
including the threshold itself, contributes no pill; the result is the first 4
per-axis picks in axis-declaration order, with no sorting by magnitude. -/
theorem c6_vibe_pills (v : List ℚ) (a : AxisRow) (_hmem : a ∈ axisConfigProfile) :
    (0.35 < v.getD a.idx 0 → addAxis v 0.35 a = some a.posLabel) ∧
    (v.getD a.idx 0 < -0.35 → addAxis v 0.35 a = some a.negLabel) ∧
    (-0.35 ≤ v.getD a.idx 0 → v.getD a.idx 0 ≤ 0.35 → addAxis v 0.35 a = none) ∧
    (10 ≤ v.length →
      vibePills (some v) = (axisConfigProfile.filterMap (addAxis v 0.35)).take 4) := by
  refine ⟨fun h => ?_, fun h => ?_, fun h1 h2 => ?_, fun hlen => ?_⟩
  · unfold addAxis
    rw [if_pos h]
  · unfold addAxis
    rw [if_neg (not_lt.mpr (le_of_lt (h.trans (by norm_num)))), if_pos h]
  · unfold addAxis
    rw [if_neg (not_lt.mpr h2), if_neg (not_lt.mpr h1)]
  · show (if v.length < 10 then []
      else (axisConfigProfile.filterMap (addAxis v 0.35)).take 4) = _
    rw [if_neg (not_lt.mpr hlen)]

/-- Witness for c6_vibe_pills on a concrete vector: axis 0 above threshold,
axis 1 below the negated threshold, axis 2 exactly at the threshold. -/
theorem c6_vibe_pills_witness :
    addAxis [0.5, -0.5, 0.35, 0, 0, 0, 0, 0, 0, 0] 0.35
        ⟨0, "Arthouse lean", "Mainstream crowd-pleaser"⟩ = some "Arthouse lean" ∧
    addAxis [0.5, -0.5, 0.35, 0, 0, 0, 0, 0, 0, 0] 0.35
        ⟨1, "Dark & moody", "Light & feel-good"⟩ = some "Light & feel-good" ∧
    addAxis [0.5, -0.5, 0.35, 0, 0, 0, 0, 0, 0, 0] 0.35
        ⟨2, "Slow-burn stories", "Fast-paced energy"⟩ = none ∧
    vibePills (some [0.5, -0.5, 0.35, 0, 0, 0, 0, 0, 0, 0]) =
      (axisConfigProfile.filterMap (addAxis [0.5, -0.5, 0.35, 0, 0, 0, 0, 0, 0, 0] 0.35)).take 4 :=
  ⟨(c6_vibe_pills _ _ (by decide)).1 (by norm_num [List.getD]),
   (c6_vibe_pills _ _ (by decide)).2.1 (by norm_num [List.getD]),
   (c6_vibe_pills _ _ (by decide)).2.2.1 (by norm_num [List.getD]) (by norm_num [List.getD]),
   (c6_vibe_pills [0.5, -0.5, 0.35, 0, 0, 0, 0, 0, 0, 0]
     ⟨0, "Arthouse lean", "Mainstream crowd-pleaser"⟩ (by decide)).2.2.2 (by decide)⟩

/-- C10: the profile-screen pill derivation returns the empty list when the
preference vector is absent or has fewer than 10 entries. -/
theorem c10_pills_short_vector :
    vibePills none = [] ∧ ∀ v : List ℚ, v.length < 10 → vibePills (some v) = [] := by
  refine ⟨rfl, fun v h => ?_⟩
  show (if v.length < 10 then []
    else (axisConfigProfile.filterMap (addAxis v 0.35)).take 4) = _
  rw [if_pos h]

/-- Witness for c10_pills_short_vector on a concrete two-entry vector. -/
theorem c10_pills_short_vector_witness :
    (([1, 2] : List ℚ).length < 10) ∧ vibePills (some [1, 2]) = [] :=
  ⟨by decide, c10_pills_short_vector.2 [1, 2] (by decide)⟩

/-- Zero-padding of a vector to length n: the implicit effect of the source
expression (b[i] || 0) for reads past the end of a short vector. -/
def padZeros (n : ℕ) (a : List ℚ) : List ℚ := a ++ List.replicate (n - a.length) 0

lemma getD_padZeros (n : ℕ) (a : List ℚ) (i : ℕ) :
    (padZeros n a).getD i 0 = a.getD i 0 := by
  unfold padZeros
  by_cases h : i < a.length
  · rw [List.getD_append _ _ _ _ h]
  · push_neg at h
    rw [List.getD_eq_default _ _ h, List.getD_append_right _ _ _ _ h]
    rcases lt_or_le (i - a.length) (n - a.length) with hj | hj
    · rw [List.getD_eq_getElem _ _ (by simpa using hj), List.getElem_replicate]
    · rw [List.getD_eq_default _ _ (by simpa using hj)]

lemma padZeros_length (n : ℕ) (a : List ℚ) (h : a.length ≤ n) :
    (padZeros n a).length = n := by
  unfold padZeros
  rw [List.length_append, List.length_replicate]
  omega

lemma dot_padZeros (n : ℕ) (a b : List ℚ) (ha : a.length ≤ n) :
    dot (padZeros n a) (padZeros n b) = dot a b := by
  rw [dot_eq_range (padZeros n a) (padZeros n b) (le_of_eq (padZeros_length n a ha)),
      dot_eq_range a b ha]
  exact Finset.sum_congr rfl fun i _ => by rw [getD_padZeros, getD_padZeros]

lemma norm_padZeros (n : ℕ) (a : List ℚ) (ha : a.length ≤ n) :
    norm (padZeros n a) = norm a := by
  unfold norm
  rw [show normSq (padZeros n a) = normSq a from dot_padZeros n a a ha]

/-- C5 counterexample: a one-entry vector, whose length is not 10, is not
rejected anywhere: the similarity computation silently reads the missing
entries as 0 and returns an ordinary score. -/
theorem c5_counterexample :
    (([1] : List ℚ).length ≠ 10) ∧ cosine (some [1]) (some unitVec0) = 1 := by
  refine ⟨by decide, ?_⟩
  have h1 : normSq [1] = 1 := by simp [normSq, Finset.sum_range_succ]
  have hn1 : norm [1] = 1 := by
    unfold norm
    rw [h1]
    simp
  have hd : dot [1] unitVec0 = 1 := by simp [dot, Finset.sum_range_succ, unitVec0]
  simp only [cosine]
  rw [if_neg (by rw [hn1, norm_unitVec0]; norm_num), hd, hn1, norm_unitVec0]
  norm_num

/-- C5 amended: the engine does not fail fast on wrong-length vectors; it
silently treats missing entries as 0, so the similarity score is invariant
under zero-padding both inputs to any common length. -/
theorem c5_no_fail_fast_amended (a b : List ℚ) (n : ℕ)
    (ha : a.length ≤ n) (hb : b.length ≤ n) :
    cosine (some a) (some b) = cosine (some (padZeros n a)) (some (padZeros n b)) := by
  simp only [cosine]
  rw [dot_padZeros n a b ha, norm_padZeros n a ha, norm_padZeros n b hb]

/-- Witness for c5_no_fail_fast_amended: a one-entry vector against the axis-0
unit vector, both padded to length 10. -/
theorem c5_no_fail_fast_amended_witness :
    (([1] : List ℚ).length ≤ 10) ∧ (unitVec0.length ≤ 10) ∧
    cosine (some [1]) (some unitVec0) =
      cosine (some (padZeros 10 [1])) (some (padZeros 10 unitVec0)) :=
  ⟨by decide, by decide, c5_no_fail_fast_amended [1] unitVec0 10 (by decide) (by decide)⟩

/-- The five axis rows of the whyThisText explanation, in declaration order. -/
def whyAxes : List AxisRow :=
  [⟨0, "artsy films", "mainstream hits"⟩,
   ⟨1, "dark tones", "lighter moods"⟩,
   ⟨2, "slow-burn pacing", "fast energy"⟩,
   ⟨6, "fantastical worlds", "grounded stories"⟩,
   ⟨9, "comfort films", "challenging cinema"⟩]

/-- Embeds the per-axis agreement of whyThisText:
score = (userPref[a.i] || 0) * (movieVibe[a.i] || 0). -/
def whyScores (up mv : List ℚ) : List (AxisRow × ℚ) :=
  whyAxes.map fun a => (a, up.getD a.idx 0 * mv.getD a.idx 0)

/-- The may-precede relation of the explanation comparator
(a, b) => Math.abs(b.score) - Math.abs(a.score): x may come before y when the
absolute agreement of y is at most that of x. -/
def absDesc (x y : AxisRow × ℚ) : Prop := |y.2| ≤ |x.2|

instance : DecidableRel absDesc := fun x y => inferInstanceAs (Decidable (|y.2| ≤ |x.2|))

instance : IsTotal (AxisRow × ℚ) absDesc := ⟨fun a b => le_total |b.2| |a.2|⟩

instance : IsTrans (AxisRow × ℚ) absDesc := ⟨fun _ _ _ h1 h2 => le_trans h2 h1⟩

/-- Embeds the top-2 selection of whyThisText: a stable sort by descending
absolute agreement followed by slice(0, 2). -/
def whyTop (up mv : List ℚ) : List (AxisRow × ℚ) :=
  (List.insertionSort absDesc (whyScores up mv)).take 2

/-- Embeds whyThisText: null when either vector is missing, otherwise a
sentence joining the phrases of the selected axes, choosing the positive-pole
phrase when the agreement is strictly positive and the negative-pole phrase
otherwise; the guard returns null when the selection is empty. -/
def whyThisText (up mv : Option (List ℚ)) : Option String :=
  match up, mv with
  | some up, some mv =>
    let top := whyTop up mv
    if top.length = 0 then none
    else some ("Because you tend to enjoy " ++
      String.intercalate (" and ")
        (top.map fun t => if 0 < t.2 then t.1.posLabel else t.1.negLabel) ++
      ", this movie aligns strongly with your taste.")
  | _, _ => none

lemma whyTop_length (up mv : List ℚ) : (whyTop up mv).length = 2 := by
  unfold whyTop
  rw [List.length_take, List.length_insertionSort]
  unfold whyScores
  rw [List.length_map]
  rfl

/-- C4 counterexample: with an all-zero user preference vector, every per-axis
agreement is zero, yet the function still returns an explanation built from
negative-pole phrases instead of null. -/
theorem c4_counterexample :
    whyThisText (some zeroVec10) (some unitVec0) ≠ none := by
  show (if (whyTop zeroVec10 unitVec0).length = 0 then none
    else some ("Because you tend to enjoy " ++
      String.intercalate (" and ")
        ((whyTop zeroVec10 unitVec0).map fun t =>
          if 0 < t.2 then t.1.posLabel else t.1.negLabel) ++
      ", this movie aligns strongly with your taste.")) ≠ none
  rw [if_neg (by rw [whyTop_length]; norm_num)]
  exact Option.some_ne_none _

/-- C4 amended: the explanation computes per-axis agreement as the product of
the two vector entries and selects the top 2 configured axes by absolute
agreement in descending order, but it returns null only when either input
vector is missing: the selection always holds exactly 2 of the 5 configured
axes, so with both vectors present an explanation is produced even when every
agreement is zero (zero agreements pick the negative-pole phrases). -/
theorem c4_why_this_amended :
    (∀ mv, whyThisText none mv = none) ∧
    (∀ up, whyThisText (some up) none = none) ∧
    (∀ up mv : List ℚ,
      whyScores up mv = whyAxes.map fun a => (a, up.getD a.idx 0 * mv.getD a.idx 0)) ∧
    (∀ up mv : List ℚ, (whyTop up mv).length = 2) ∧
    (∀ up mv : List ℚ, List.Pairwise absDesc (whyTop up mv)) ∧
    (∀ up mv : List ℚ, whyThisText (some up) (some mv) ≠ none) := by
  refine ⟨fun mv => rfl, fun up => rfl, fun up mv => rfl, whyTop_length,
    fun up mv => ?_, fun up mv => ?_⟩
  · exact List.Pairwise.sublist (List.take_sublist 2 _)
      (List.sorted_insertionSort absDesc (whyScores up mv))
  · show (if (whyTop up mv).length = 0 then none
      else some ("Because you tend to enjoy " ++
        String.intercalate (" and ")
          ((whyTop up mv).map fun t =>
            if 0 < t.2 then t.1.posLabel else t.1.negLabel) ++
        ", this movie aligns strongly with your taste.")) ≠ none
    rw [if_neg (by rw [whyTop_length]; norm_num)]
    exact Option.some_ne_none _

/-- Witness for c4_why_this_amended at concrete vectors. -/
theorem c4_why_this_amended_witness :
    whyThisText none (some unitVec0) = none ∧
    whyThisText (some unitVec0) (some unitVec0) ≠ none :=
  ⟨c4_why_this_amended.1 (some unitVec0), c4_why_this_amended.2.2.2.2.2 unitVec0 unitVec0⟩

end VibeEngine
